import Mathlib

/-!
Verification of the orbital-mechanics core of `src/src/components/Planet.tsx`
(kevin-hu22/near-space).  The component's numeric work is shallowly embedded
over `ℝ`: angles are stored in degrees and converted by `deg2rad`, the
per-frame `useFrame` body becomes the pure state-passing function `tick`, the
`orbitPoints` memo becomes `orbitPoints`, and the opacity computation becomes
`newOpacityAt`.  The Kepler solver is imported by the component from
`src/utils/kepler.ts`, a file that is not part of the repository snapshot;
the per-tick logic is therefore parameterised over an arbitrary solver of the
imported signature (`ℝ → ℝ → Option ℝ`, `none` standing for a NaN result),
and a concrete `solveKepler` is modelled from the spec where a claim needs
the solver's actual values.
-/

noncomputable section

open Real

/-- Orbit regime classification values, `Planet.tsx` lines 120-125. -/
inductive OrbitRegime where
  | elliptical
  | parabolic
  | hyperbolic
deriving DecidableEq

/-- The six Keplerian orbital elements held in `keplerElementsRef`
(`Planet.tsx` lines 81-89); angles in degrees. -/
@[ext]
structure Elements where
  semiMajorAxis : ℝ
  eccentricity : ℝ
  inclination : ℝ
  longitudeOfAscendingNode : ℝ
  argumentOfPeriapsis : ℝ
  meanAnomalyAtEpoch : ℝ

/-- A 3-vector of world coordinates (`THREE.Vector3`). -/
@[ext]
structure Vec3 where
  x : ℝ
  y : ℝ
  z : ℝ

/-- Static per-body configuration destructured from the component's props
(`Planet.tsx` lines 31-53): the six secular rates, the orbital period, the
catalog semi-major axis (used unchanged by the opacity thresholds at lines
489-490), and the astronomical-unit scale constant `AU`. -/
@[ext]
structure Config where
  semiMajorAxisRate : ℝ
  eccentricityRate : ℝ
  inclinationRate : ℝ
  longitudeOfAscendingNodeRate : ℝ
  argumentOfPeriapsisRate : ℝ
  meanAnomalyAtEpochRate : ℝ
  orbitalPeriod : ℝ
  semiMajorAxis0 : ℝ
  AU : ℝ

/-- Degrees to radians, `Planet.tsx` line 69. -/
def deg2rad (deg : ℝ) : ℝ := deg * π / 180

/-- Mean motion `n = 2π / (orbitalPeriod * 86400)`, `Planet.tsx` lines 71-74. -/
def meanMotion (cfg : Config) : ℝ := 2 * π / (cfg.orbitalPeriod * 86400)

/-- The regime classification of an eccentricity, `Planet.tsx` lines 120-125. -/
def orbitTypeOf (e : ℝ) : OrbitRegime :=
  if e < 1 then .elliptical else if e = 1 then .parabolic else .hyperbolic

/-- The per-body mutable cell: the drifting elements plus the stored opacity
(`keplerElementsRef`, lines 81-89), together with the `orbitType` memo, which
has an empty dependency array (lines 120-125) and is therefore part of the
mounted state, never recomputed. -/
@[ext]
structure CompState where
  elems : Elements
  orbitType : OrbitRegime
  opacity : ℝ

/-- Component mount: `keplerElementsRef` initialised from the catalog
elements with opacity 0 (lines 81-89), `orbitType` computed once from the
initial eccentricity (lines 120-125). -/
def mount (el : Elements) : CompState :=
  { elems := el, orbitType := orbitTypeOf el.eccentricity, opacity := 0 }

/-- Secular rate integration of one tick, `Planet.tsx` lines 328-349: each
element advances by its rate times `deltaCySimulation`. -/
def integrateElements (cfg : Config) (el : Elements) (deltaCy : ℝ) : Elements :=
  { semiMajorAxis := el.semiMajorAxis + cfg.semiMajorAxisRate * deltaCy
    eccentricity := el.eccentricity + cfg.eccentricityRate * deltaCy
    inclination := el.inclination + cfg.inclinationRate * deltaCy
    longitudeOfAscendingNode :=
      el.longitudeOfAscendingNode + cfg.longitudeOfAscendingNodeRate * deltaCy
    argumentOfPeriapsis :=
      el.argumentOfPeriapsis + cfg.argumentOfPeriapsisRate * deltaCy
    meanAnomalyAtEpoch :=
      el.meanAnomalyAtEpoch + cfg.meanAnomalyAtEpochRate * deltaCy }

/-- The `Math.atan2` of the source: the angle of the point `(x, y)`,
written with the library's `arctan` and the usual quadrant corrections. -/
def atan2 (y x : ℝ) : ℝ :=
  if 0 < x then arctan (y / x)
  else if x < 0 then (if 0 ≤ y then arctan (y / x) + π else arctan (y / x) - π)
  else if 0 < y then π / 2
  else if y < 0 then -(π / 2)
  else 0

/-- Elliptical/parabolic true anomaly, `Planet.tsx` lines 377-383. -/
def nuEll (e E : ℝ) : ℝ :=
  2 * atan2 (Real.sqrt (1 + e) * Real.sin (E / 2)) (Real.sqrt (1 - e) * Real.cos (E / 2))

/-- Elliptical/parabolic radius, `Planet.tsx` line 384. -/
def radiusEll (a e E : ℝ) : ℝ := a * (1 - e * Real.cos E)

/-- Hyperbolic true anomaly, `Planet.tsx` lines 385-391. -/
def nuHyp (e E : ℝ) : ℝ :=
  2 * atan2 (Real.sqrt (e + 1) * Real.sinh (E / 2)) (Real.sqrt (e - 1) * Real.cosh (E / 2))

/-- Hyperbolic radius, `Planet.tsx` line 392. -/
def radiusHyp (a e E : ℝ) : ℝ := a * (e * Real.cosh E - 1)

/-- Rotation of orbital-plane coordinates into the inertial frame,
`Planet.tsx` lines 395-411. -/
def rotateToInertial (iRad ORad wRad xOrb yOrb : ℝ) : Vec3 :=
  { x := (Real.cos ORad * Real.cos wRad - Real.sin ORad * Real.sin wRad * Real.cos iRad) * xOrb +
        (-(Real.cos ORad * Real.sin wRad) - Real.sin ORad * Real.cos wRad * Real.cos iRad) * yOrb
    y := (Real.sin ORad * Real.cos wRad + Real.cos ORad * Real.sin wRad * Real.cos iRad) * xOrb +
        (-(Real.sin ORad * Real.sin wRad) + Real.cos ORad * Real.cos wRad * Real.cos iRad) * yOrb
    z := Real.sin wRad * Real.sin iRad * xOrb + Real.cos wRad * Real.sin iRad * yOrb }

/-- The inertial point derived from a solved anomaly `E` (`Planet.tsx`
lines 372-414 and, identically, 151-190): regime-dispatched true anomaly and
radius, orbital-plane coordinates, frame rotation, AU scaling.  The regime
dispatch routes `parabolic` through the elliptical formula, as the source's
`if (orbitType === 'elliptical' || orbitType === 'parabolic')` does. -/
def bodyPoint (regime : OrbitRegime) (el : Elements) (E : ℝ) (au : ℝ) : Vec3 :=
  let nur : ℝ × ℝ :=
    match regime with
    | .hyperbolic =>
        (nuHyp el.eccentricity E, radiusHyp el.semiMajorAxis el.eccentricity E)
    | _ => (nuEll el.eccentricity E, radiusEll el.semiMajorAxis el.eccentricity E)
  let xOrb := nur.2 * Real.cos nur.1
  let yOrb := nur.2 * Real.sin nur.1
  let p := rotateToInertial (deg2rad el.inclination) (deg2rad el.longitudeOfAscendingNode)
      (deg2rad el.argumentOfPeriapsis) xOrb yOrb
  { x := p.x * au, y := p.y * au, z := p.z * au }

/-- Mean anomaly handed to the solver, `Planet.tsx` lines 351-362: the
(post-integration, degree-valued) `meanAnomalyAtEpoch` converted to radians
plus `n * elapsedTime`; for the memoised hyperbolic regime `M` is replaced by
`-M` unless `elapsedTime > 0`. -/
def tickMeanAnomaly (cfg : Config) (regime : OrbitRegime) (el : Elements) (elapsed : ℝ) : ℝ :=
  let M := deg2rad el.meanAnomalyAtEpoch + meanMotion cfg * elapsed
  if regime = .hyperbolic then (if 0 < elapsed then M else -M) else M

/-- `THREE.MathUtils.clamp`. -/
def clamp (v lo hi : ℝ) : ℝ := max lo (min hi v)

/-- `cameraPosition.distanceTo(planetPos)`. -/
def distance3 (p q : Vec3) : ℝ :=
  Real.sqrt ((p.x - q.x) ^ 2 + (p.y - q.y) ^ 2 + (p.z - q.z) ^ 2)

/-- The per-tick opacity, `Planet.tsx` lines 489-499: 1 below
`minDistance = a·AU·4`, otherwise `1 - (d - min)/(max - min)` clamped to
`[0, 1]`, with `maxDistance = a·AU·10`. -/
def newOpacityAt (distance a au : ℝ) : ℝ :=
  if a * au * 4 < distance then
    clamp (1 - (distance - a * au * 4) / (a * au * 10 - a * au * 4)) 0 1
  else 1

/-- The outputs a tick hands to the scene: the group position (line 414),
the orbital-plane Euler angles (lines 416-421) and the opacity written to the
materials (lines 492-523). -/
@[ext]
structure TickOutputs where
  position : Vec3
  orientation : Vec3
  opacity : ℝ

/-- The elements after this tick's rate integration,
`deltaCySimulation = delta * speedFactor / 86400` (line 328). -/
def tickElements (cfg : Config) (s : CompState) (delta speedFactor : ℝ) : Elements :=
  integrateElements cfg s.elems (delta * speedFactor / 86400)

/-- The mean anomaly this tick passes to the solver,
`elapsedTime = clock.getElapsedTime() * speedFactor` (line 326). -/
def tickM (cfg : Config) (s : CompState) (clockT delta speedFactor : ℝ) : ℝ :=
  tickMeanAnomaly cfg s.orbitType (tickElements cfg s delta speedFactor)
    (clockT * speedFactor)

/-- One `useFrame` tick (`Planet.tsx` lines 320-527), as a pure function of
the previous state and previous outputs.  The `!AU` guard (line 321) leaves
everything untouched; otherwise the elements integrate their rates first
(lines 329-349), then the solver runs on the post-integration mean anomaly
and eccentricity (line 364); a `NaN` result (modelled `none`) returns early
(lines 365-370), keeping the previous outputs and the previously stored
opacity but the already-integrated elements; on success the position,
orientation and opacity are recomputed and the new opacity stored
(lines 372-526). -/
def tick (solve : ℝ → ℝ → Option ℝ) (cfg : Config) (s : CompState)
    (prevOut : TickOutputs) (clockT delta speedFactor : ℝ) (cameraPos : Vec3) :
    CompState × TickOutputs :=
  if cfg.AU = 0 then (s, prevOut)
  else
    match solve (tickM cfg s clockT delta speedFactor)
        (tickElements cfg s delta speedFactor).eccentricity with
    | none =>
        ({ elems := tickElements cfg s delta speedFactor, orbitType := s.orbitType,
           opacity := s.opacity }, prevOut)
    | some E =>
        let el := tickElements cfg s delta speedFactor
        let pos := bodyPoint s.orbitType el E cfg.AU
        let newOpacity := newOpacityAt (distance3 cameraPos pos) cfg.semiMajorAxis0 cfg.AU
        ({ elems := el, orbitType := s.orbitType, opacity := newOpacity },
         { position := pos,
           orientation := { x := deg2rad el.inclination,
                            y := deg2rad el.longitudeOfAscendingNode,
                            z := deg2rad el.argumentOfPeriapsis },
           opacity := newOpacity })

/-- Modelled from the spec: the convergence tolerance of the Kepler solver
(`src/utils/kepler.ts`, imported at `Planet.tsx` line 6 but not among the
repository's files); spec §4.1 gives `1e-8`. -/
def keplerTolerance : ℝ := 1e-8

/-- Modelled from the spec: the solver's fixed iteration cap (§4.1 asks for
"a maximum iteration cap"; the exact number is unspecified, 50 is used). -/
def keplerMaxIter : ℕ := 50

/-- Modelled from the spec: Newton-Raphson for `M = E - e·sin E` (§4.1),
failing with `none` when the fuel (iteration cap) is exhausted. -/
def newtonEll (e M : ℝ) : ℕ → ℝ → Option ℝ
  | 0, _ => none
  | fuel + 1, E =>
      if |E - e * Real.sin E - M| < keplerTolerance then some E
      else newtonEll e M fuel (E - (E - e * Real.sin E - M) / (1 - e * Real.cos E))

/-- Modelled from the spec: Newton-Raphson for `M = e·sinh F - F` (§4.1). -/
def newtonHyp (e M : ℝ) : ℕ → ℝ → Option ℝ
  | 0, _ => none
  | fuel + 1, F =>
      if |e * Real.sinh F - F - M| < keplerTolerance then some F
      else newtonHyp e M fuel (F - (e * Real.sinh F - F - M) / (e * Real.cosh F - 1))

/-- Modelled from the spec: the hyperbolic branch's starting value
`sign(M) · ln(2|M|/e + 1.8)` (§4.1). -/
def hypStart (e M : ℝ) : ℝ :=
  (if 0 < M then 1 else if M < 0 then -1 else 0) * Real.log (2 * |M| / e + 1.8)

/-- Modelled from the spec: `solveKepler` of `src/utils/kepler.ts` (absent
from the snapshot): the elliptical Newton iteration from `E₀ = M` for
`e < 1`, the hyperbolic iteration from `hypStart` otherwise (§4.1). -/
def solveKepler (M e : ℝ) : Option ℝ :=
  if e < 1 then newtonEll e M keplerMaxIter M
  else newtonHyp e M keplerMaxIter (hypStart e M)

/-- The path sampler's segment constant, `Planet.tsx` line 129. -/
def segmentCount : ℕ := 128

/-- The path sampler's last index, `Planet.tsx` lines 132-135: `segments`
for the elliptical/parabolic sweep, 64 for the hyperbolic one. -/
def orbitMaxIdx (regime : OrbitRegime) : ℕ :=
  if regime = .hyperbolic then 64 else segmentCount

/-- The mean anomaly of one path sample, `Planet.tsx` lines 137-141:
`2π·idx/segments`, overwritten with `(idx - segments/2) * 0.1` in the
hyperbolic regime. -/
def orbitSampleM (regime : OrbitRegime) (idx : ℕ) : ℝ :=
  if regime = .hyperbolic then ((idx : ℝ) - (segmentCount : ℝ) / 2) * 0.1
  else 2 * π * (idx : ℝ) / (segmentCount : ℝ)

/-- One path sample, `Planet.tsx` lines 143-190: `none` when the solver
returns NaN (the sample is skipped with `continue`), the inertial point
otherwise. -/
def orbitSamplePoint (solve : ℝ → ℝ → Option ℝ) (regime : OrbitRegime)
    (el : Elements) (au : ℝ) (idx : ℕ) : Option Vec3 :=
  match solve (orbitSampleM regime idx) el.eccentricity with
  | none => none
  | some E => some (bodyPoint regime el E au)

/-- The `orbitPoints` memo, `Planet.tsx` lines 127-194: the samples at
indices `0..maxIdx`, failed samples dropped. -/
def orbitPoints (solve : ℝ → ℝ → Option ℝ) (regime : OrbitRegime)
    (el : Elements) (au : ℝ) : List Vec3 :=
  (List.range (orbitMaxIdx regime + 1)).filterMap (orbitSamplePoint solve regime el au)

/-- The mean anomalies the path sampler sweeps, in sample order. -/
def orbitSweepM (regime : OrbitRegime) : List ℝ :=
  (List.range (orbitMaxIdx regime + 1)).map (orbitSampleM regime)

/-- The camera mode relevant to the click handlers: `'ship'` or anything
else (`Planet.tsx` lines 290-310). -/
inductive CameraType where
  | ship
  | free
deriving DecidableEq

/-- `handleBodyClick` (`Planet.tsx` lines 290-298) calls `setFocusedBody`
exactly when the camera is not the ship camera and the stored opacity
exceeds 0.05. -/
def bodyClickSelects (cameraType : CameraType) (storedOpacity : ℝ) : Prop :=
  cameraType ≠ .ship ∧ 0.05 < storedOpacity

/-- The scene group's visibility flag, `Planet.tsx` line 525. -/
def groupVisible (newOpacity : ℝ) : Prop := 0.05 < newOpacity

/-! ### Concrete sample data used by witnesses and counterexamples -/

/-- A catalog element set with eccentricity 1/2. -/
def elHalf : Elements :=
  { semiMajorAxis := 1, eccentricity := 1/2, inclination := 0,
    longitudeOfAscendingNode := 0, argumentOfPeriapsis := 0, meanAnomalyAtEpoch := 0 }

/-- A configuration whose only nonzero rate is an eccentricity rate of 1. -/
def cfgEccUp : Config :=
  { semiMajorAxisRate := 0, eccentricityRate := 1, inclinationRate := 0,
    longitudeOfAscendingNodeRate := 0, argumentOfPeriapsisRate := 0,
    meanAnomalyAtEpochRate := 0, orbitalPeriod := 1, semiMajorAxis0 := 1, AU := 1 }

/-- A configuration whose only nonzero rate is an eccentricity rate of -1. -/
def cfgEccDown : Config :=
  { cfgEccUp with eccentricityRate := -1 }

/-- A rate-free configuration. -/
def cfgStill : Config :=
  { cfgEccUp with eccentricityRate := 0 }

/-- A zero previous-outputs record. -/
def outZero : TickOutputs :=
  { position := { x := 0, y := 0, z := 0 },
    orientation := { x := 0, y := 0, z := 0 }, opacity := 0 }

/-- The origin, standing in for a camera position. -/
def camZero : Vec3 := { x := 0, y := 0, z := 0 }

/-- A hyperbolic catalog element set (eccentricity 2). -/
def elHyp : Elements := { elHalf with eccentricity := 2 }

/-! ### C1 — the regime classification is memoised at mount, not recomputed -/

/-- A tick preserves the memoised `orbitType` unchanged, whatever happens to
the eccentricity. -/
theorem tick_orbitType_eq (solve : ℝ → ℝ → Option ℝ) (cfg : Config) (s : CompState)
    (prevOut : TickOutputs) (t d sf : ℝ) (cam : Vec3) :
    (tick solve cfg s prevOut t d sf cam).1.orbitType = s.orbitType := by
  rw [tick]
  split
  · rfl
  · split <;> rfl

/-- C1 (amended): the regime classification is computed once at mount from
the initial eccentricity (`useMemo` with an empty dependency array, lines
120-125) and every tick preserves it verbatim; it is not re-evaluated from
the post-integration eccentricity. -/
theorem orbitType_memoised_at_mount (solve : ℝ → ℝ → Option ℝ) (cfg : Config)
    (el0 : Elements) (prevOut : TickOutputs) (t d sf : ℝ) (cam : Vec3) :
    (mount el0).orbitType = orbitTypeOf el0.eccentricity ∧
    ∀ s : CompState, (tick solve cfg s prevOut t d sf cam).1.orbitType = s.orbitType :=
  ⟨rfl, fun s => tick_orbitType_eq solve cfg s prevOut t d sf cam⟩

/-- C1 counterexample: starting from eccentricity 1/2 with an eccentricity
rate of 1, one tick of 86400 s at speed factor 1 drifts the stored
eccentricity to 3/2, yet the regime consulted by the tick is still
`elliptical` while the classification of the current eccentricity is
`hyperbolic`. -/
theorem orbitType_stale_counterexample :
    (tick (fun _ _ => some 0) cfgEccUp (mount elHalf) outZero 0 86400 1 camZero).1.orbitType
      = OrbitRegime.elliptical ∧
    orbitTypeOf
      ((tick (fun _ _ => some 0) cfgEccUp (mount elHalf) outZero 0 86400 1 camZero).1.elems.eccentricity)
      = OrbitRegime.hyperbolic ∧
    OrbitRegime.elliptical ≠ OrbitRegime.hyperbolic := by
  refine ⟨?_, ?_, by decide⟩
  · rw [tick_orbitType_eq]
    simp [mount, orbitTypeOf, elHalf]
    norm_num
  · rw [tick]
    norm_num [cfgEccUp, tickElements, integrateElements, mount, elHalf, orbitTypeOf]

/-! ### C8 — eccentricity is integrated without any lower clamp -/

/-- C8 (amended): the rate integration applies no clamp, so the stored
eccentricity stays nonnegative exactly when the linear update does; in
particular it is preserved for a nonnegative previous eccentricity,
eccentricity rate, frame delta and speed factor. -/
theorem eccentricity_nonneg_of_nonneg_rate (cfg : Config) (s : CompState) (d sf : ℝ)
    (he : 0 ≤ s.elems.eccentricity) (hr : 0 ≤ cfg.eccentricityRate)
    (hd : 0 ≤ d) (hsf : 0 ≤ sf) :
    0 ≤ (tickElements cfg s d sf).eccentricity := by
  rw [tickElements, integrateElements]
  have h86 : (0:ℝ) ≤ 86400 := by norm_num
  exact add_nonneg he (mul_nonneg hr (div_nonneg (mul_nonneg hd hsf) h86))

/-- Witness for C8's amended theorem at a concrete nonnegative input. -/
theorem eccentricity_nonneg_witness :
    0 ≤ (tickElements cfgEccUp (mount elHalf) 86400 1).eccentricity :=
  eccentricity_nonneg_of_nonneg_rate cfgEccUp (mount elHalf) 86400 1
    (by norm_num [mount, elHalf]) (by norm_num [cfgEccUp]) (by norm_num) (by norm_num)

/-- C8 counterexample: from eccentricity 0 with rate -1, one tick of
86400 s at speed factor 1 stores eccentricity -1 < 0: the invariant
"eccentricity ≥ 0 always" fails on the code. -/
theorem eccentricity_negative_counterexample :
    (tickElements cfgEccDown (mount { elHalf with eccentricity := 0 }) 86400 1).eccentricity
      = -1 ∧ ¬ (0:ℝ) ≤ -1 := by
  constructor
  · norm_num [tickElements, integrateElements, mount, elHalf, cfgEccDown, cfgEccUp]
  · norm_num

/-! ### C10 — selection and visibility are gated by opacity > 0.05 -/

/-- C10: the click handler focuses the body only when the most recently
stored opacity exceeds 0.05, the scene group is marked visible exactly when
the freshly computed opacity exceeds 0.05, and at opacity ≤ 0.05 the body is
both hidden and non-selectable. -/
theorem selection_and_visibility_gated_by_opacity (cam : CameraType) (op : ℝ) :
    (bodyClickSelects cam op → 0.05 < op) ∧
    (groupVisible op ↔ 0.05 < op) ∧
    (op ≤ 0.05 → ¬ bodyClickSelects cam op ∧ ¬ groupVisible op) := by
  refine ⟨fun h => h.2, Iff.rfl, fun hle => ⟨fun h => ?_, fun h => ?_⟩⟩
  · exact absurd h.2 (not_lt.mpr hle)
  · exact absurd h (not_lt.mpr hle)

/-! ### C2 — a failed solve keeps the outputs but not the already-drifted elements -/

/-- C2 (amended): on a tick whose solver call fails, the previous position,
orientation and opacity are all retained (no NaN reaches the outputs), and
the memoised regime and stored opacity are unchanged — but the six orbital
elements have already been rate-integrated for that tick, since the
integration (lines 329-349) precedes the solver call (line 364). -/
theorem solver_failure_retains_outputs (solve : ℝ → ℝ → Option ℝ) (cfg : Config)
    (s : CompState) (prevOut : TickOutputs) (t d sf : ℝ) (cam : Vec3)
    (hAU : cfg.AU ≠ 0)
    (h : solve (tickM cfg s t d sf) (tickElements cfg s d sf).eccentricity = none) :
    (tick solve cfg s prevOut t d sf cam).2 = prevOut ∧
    (tick solve cfg s prevOut t d sf cam).1.opacity = s.opacity ∧
    (tick solve cfg s prevOut t d sf cam).1.orbitType = s.orbitType ∧
    (tick solve cfg s prevOut t d sf cam).1.elems = tickElements cfg s d sf := by
  rw [tick, if_neg hAU, h]
  exact ⟨rfl, rfl, rfl, rfl⟩

/-- Witness for C2's amended theorem: a concrete tick with an always-failing
solver keeps the previous outputs. -/
theorem solver_failure_witness :
    (tick (fun _ _ => none) cfgEccUp (mount elHalf) outZero 0 86400 1 camZero).2 = outZero :=
  (solver_failure_retains_outputs (fun _ _ => none) cfgEccUp (mount elHalf) outZero
    0 86400 1 camZero (by norm_num [cfgEccUp]) rfl).1

/-- C2 counterexample: a tick whose solver call fails (a constantly-`none`
solver) nevertheless changes the stored eccentricity from 1/2 to 3/2 —
the previous PropagatedState's drifted elements are not retained. -/
theorem solver_failure_drifts_elements_counterexample :
    (fun _ _ => (none : Option ℝ)) (tickM cfgEccUp (mount elHalf) 0 86400 1)
        (tickElements cfgEccUp (mount elHalf) 86400 1).eccentricity = none ∧
    (tick (fun _ _ => none) cfgEccUp (mount elHalf) outZero 0 86400 1 camZero).1.elems.eccentricity
      = 3/2 ∧
    (mount elHalf).elems.eccentricity = 1/2 ∧
    (3/2 : ℝ) ≠ 1/2 := by
  refine ⟨rfl, ?_, by norm_num [mount, elHalf], by norm_num⟩
  rw [tick]
  norm_num [cfgEccUp, tickElements, integrateElements, mount, elHalf]

/-! ### C4 and C9 — the anomaly advance is (total elapsed) × (speed factor) -/

/-- Rate integration with equal `delta * speedFactor` products gives equal
elements. -/
theorem tickElements_eq_of_product (cfg : Config) (s : CompState) {d1 sf1 d2 sf2 : ℝ}
    (hd : d1 * sf1 = d2 * sf2) :
    tickElements cfg s d1 sf1 = tickElements cfg s d2 sf2 := by
  rw [tickElements, tickElements, hd]

/-- Equal `clock * speedFactor` and `delta * speedFactor` products give the
same solver mean anomaly. -/
theorem tickM_eq_of_products (cfg : Config) (s : CompState) {t1 d1 sf1 t2 d2 sf2 : ℝ}
    (ht : t1 * sf1 = t2 * sf2) (hd : d1 * sf1 = d2 * sf2) :
    tickM cfg s t1 d1 sf1 = tickM cfg s t2 d2 sf2 := by
  rw [tickM, tickM, ht, tickElements_eq_of_product cfg s hd]

/-- The whole tick is a function of the two products
`clock * speedFactor` and `delta * speedFactor` (the camera fixed). -/
theorem tick_eq_of_products (solve : ℝ → ℝ → Option ℝ) (cfg : Config) (s : CompState)
    (prevOut : TickOutputs) {t1 d1 sf1 t2 d2 sf2 : ℝ} (cam : Vec3)
    (ht : t1 * sf1 = t2 * sf2) (hd : d1 * sf1 = d2 * sf2) :
    tick solve cfg s prevOut t1 d1 sf1 cam = tick solve cfg s prevOut t2 d2 sf2 cam := by
  rw [tick, tick, tickM_eq_of_products cfg s ht hd, tickElements_eq_of_product cfg s hd]

/-- C4: with the speed multiplier at 0, any two ticks — whatever their clock
times, frame deltas and camera positions — leave the orbital elements equal
(indeed equal to the previous elements: no drift accumulates) and produce
identical positions. -/
theorem pause_freezes_elements_and_position (solve : ℝ → ℝ → Option ℝ) (cfg : Config)
    (s : CompState) (prevOut : TickOutputs) (t1 d1 t2 d2 : ℝ) (cam1 cam2 : Vec3) :
    (tick solve cfg s prevOut t1 d1 0 cam1).1.elems
      = (tick solve cfg s prevOut t2 d2 0 cam2).1.elems ∧
    (tick solve cfg s prevOut t1 d1 0 cam1).2.position
      = (tick solve cfg s prevOut t2 d2 0 cam2).2.position ∧
    (tick solve cfg s prevOut t1 d1 0 cam1).1.elems = s.elems := by
  have hel : ∀ d : ℝ, tickElements cfg s d 0 = s.elems := by
    intro d
    rw [tickElements, integrateElements]
    ext <;> simp
  have hM : tickM cfg s t1 d1 0 = tickM cfg s t2 d2 0 :=
    tickM_eq_of_products cfg s (by ring) (by ring)
  have helems : ∀ (t d : ℝ) (cam : Vec3),
      (tick solve cfg s prevOut t d 0 cam).1.elems = s.elems := by
    intro t d cam
    rw [tick]
    split
    · rfl
    · rw [hel]
      split <;> simp_all [hel]
  refine ⟨(helems t1 d1 cam1).trans (helems t2 d2 cam2).symm, ?_, helems t1 d1 cam1⟩
  rw [tick, tick, hM, hel d1, hel d2]
  split
  · rfl
  · split <;> rfl

/-- C9: the anomaly advance each tick is (total wall-clock elapsed) × (current
speed factor): the tick is a function of the products `clock × speed` and
`delta × speed`, so changing the speed factor rescales the whole elapsed
interval at once, and at speed factor 0 a tick coincides with the
elapsed-time-zero (epoch) tick rather than holding the last propagated
position. -/
theorem anomaly_from_total_elapsed_times_speed (solve : ℝ → ℝ → Option ℝ)
    (cfg : Config) (s : CompState) (prevOut : TickOutputs)
    (t1 d1 sf1 t2 d2 sf2 : ℝ) (cam : Vec3)
    (ht : t1 * sf1 = t2 * sf2) (hd : d1 * sf1 = d2 * sf2) :
    tick solve cfg s prevOut t1 d1 sf1 cam = tick solve cfg s prevOut t2 d2 sf2 cam ∧
    ∀ t d : ℝ, tick solve cfg s prevOut t d 0 cam = tick solve cfg s prevOut 0 0 1 cam :=
  ⟨tick_eq_of_products solve cfg s prevOut cam ht hd,
   fun t d => tick_eq_of_products solve cfg s prevOut cam (by ring) (by ring)⟩

/-- Witness for C9 at concrete products: clock 2 at speed 3 and clock 6 at
speed 1 (deltas 4 and 12) give identical ticks. -/
theorem anomaly_product_witness :
    tick (fun _ _ => some 0) cfgEccUp (mount elHalf) outZero 2 4 3 camZero
      = tick (fun _ _ => some 0) cfgEccUp (mount elHalf) outZero 6 12 1 camZero :=
  (anomaly_from_total_elapsed_times_speed (fun _ _ => some 0) cfgEccUp (mount elHalf)
    outZero 2 4 3 6 12 1 camZero (by norm_num) (by norm_num)).1

/-! ### C5 — the hyperbolic mean-anomaly mirror -/

/-- With a zero (drifted) mean anomaly at epoch, the mirrored mean anomaly
is the same at elapsed times `+T` and `-T`. -/
theorem tickMeanAnomaly_mirror_even (cfg : Config) (el : Elements)
    (h0 : el.meanAnomalyAtEpoch = 0) (T : ℝ) :
    tickMeanAnomaly cfg .hyperbolic el T = tickMeanAnomaly cfg .hyperbolic el (-T) := by
  rw [tickMeanAnomaly, tickMeanAnomaly]
  simp only [reduceIte, h0, deg2rad, zero_mul, zero_div, zero_add]
  rcases lt_trichotomy T 0 with h | h | h
  · rw [if_neg (not_lt.mpr h.le), if_pos (by linarith)]
    ring
  · rw [h]
    norm_num
  · rw [if_pos h, if_neg (by intro hc; linarith)]
    ring

/-- C5 (amended): for the hyperbolic regime the code replaces `M` by `-M`
whenever elapsed time is not positive; this does not make the sign of the
solver's mean anomaly match the sign of elapsed time — with a zero drifted
mean anomaly at epoch the solver receives the *same* mean anomaly at elapsed
times `+T` and `-T`, so the propagated true anomaly at `-T` equals (rather
than opposes) the one at `+T`: the body retraces the same branch instead of
mirroring it. -/
theorem hyperbolic_mirror_retraces (cfg : Config) (el : Elements) :
    (∀ t : ℝ, t ≤ 0 →
        tickMeanAnomaly cfg .hyperbolic el t
          = -(deg2rad el.meanAnomalyAtEpoch + meanMotion cfg * t)) ∧
    (el.meanAnomalyAtEpoch = 0 → ∀ T : ℝ,
        tickMeanAnomaly cfg .hyperbolic el T = tickMeanAnomaly cfg .hyperbolic el (-T)) ∧
    (el.meanAnomalyAtEpoch = 0 → ∀ (solve : ℝ → ℝ → Option ℝ) (T : ℝ),
        (solve (tickMeanAnomaly cfg .hyperbolic el T) el.eccentricity).map
            (nuHyp el.eccentricity)
          = (solve (tickMeanAnomaly cfg .hyperbolic el (-T)) el.eccentricity).map
            (nuHyp el.eccentricity)) := by
  refine ⟨fun t ht => ?_, tickMeanAnomaly_mirror_even cfg el,
    fun h0 solve T => by rw [tickMeanAnomaly_mirror_even cfg el h0 T]⟩
  rw [tickMeanAnomaly]
  simp only [reduceIte]
  rw [if_neg (not_lt.mpr ht)]

/-- C5 counterexample: with eccentricity 2, zero epoch anomaly and period 1,
the mean anomaly the tick passes to the solver at elapsed time `-1` is
`π/43200 > 0` — it does not match the negative sign of the elapsed time —
and it equals the mean anomaly passed at elapsed time `+1`, so the two
solved true anomalies coincide instead of having opposite signs. -/
theorem hyperbolic_sign_counterexample :
    tickMeanAnomaly cfgStill .hyperbolic elHyp (-1)
      = tickMeanAnomaly cfgStill .hyperbolic elHyp 1 ∧
    0 < tickMeanAnomaly cfgStill .hyperbolic elHyp (-1) ∧
    ¬ tickMeanAnomaly cfgStill .hyperbolic elHyp (-1) < 0 := by
  have hval : tickMeanAnomaly cfgStill .hyperbolic elHyp (-1)
      = 2 * π / 86400 := by
    rw [tickMeanAnomaly]
    simp only [reduceIte]
    rw [if_neg (by norm_num)]
    simp [elHyp, elHalf, deg2rad, meanMotion, cfgStill, cfgEccUp]
  have hval2 : tickMeanAnomaly cfgStill .hyperbolic elHyp 1 = 2 * π / 86400 := by
    rw [tickMeanAnomaly]
    simp only [reduceIte]
    rw [if_pos (by norm_num)]
    simp [elHyp, elHalf, deg2rad, meanMotion, cfgStill, cfgEccUp]
  have hpos : (0:ℝ) < 2 * π / 86400 := by positivity
  exact ⟨hval.trans hval2.symm, hval ▸ hpos, hval ▸ not_lt.mpr hpos.le⟩

/-! ### C6 — the hyperbolic path sweep is a pre-periapsis half-range -/

/-- Every mean anomaly of the hyperbolic sweep lies in `[-6.4, 0]`. -/
theorem hyperbolic_sweep_mem_bounds {m : ℝ} (hm : m ∈ orbitSweepM .hyperbolic) :
    -(32/5) ≤ m ∧ m ≤ 0 := by
  rw [orbitSweepM] at hm
  obtain ⟨i, hi, rfl⟩ := List.mem_map.mp hm
  rw [List.mem_range] at hi
  have hiR : (i : ℝ) ≤ 64 := by
    have : i ≤ 64 := by
      rw [orbitMaxIdx] at hi
      simp at hi
      omega
    exact_mod_cast this
  have h0R : (0:ℝ) ≤ (i : ℝ) := Nat.cast_nonneg i
  rw [orbitSampleM]
  simp only [reduceIte]
  constructor
  · rw [segmentCount]
    push_cast
    nlinarith
  · rw [segmentCount]
    push_cast
    nlinarith

/-- C6 counterexample: the hyperbolic sweep contains `-6.4` (its sample at
index 0) but not `+6.4` — every swept value is ≤ 0 — so the swept range is
not symmetric about periapsis `M = 0`. -/
theorem hyperbolic_sweep_asymmetric_counterexample :
    (-(32/5) : ℝ) ∈ orbitSweepM .hyperbolic ∧
    ((32/5) : ℝ) ∉ orbitSweepM .hyperbolic := by
  constructor
  · rw [orbitSweepM]
    refine List.mem_map.mpr ⟨0, ?_, ?_⟩
    · rw [List.mem_range]
      norm_num [orbitMaxIdx]
    · rw [orbitSampleM]
      simp only [reduceIte]
      rw [segmentCount]
      norm_num
  · intro h
    have := (hyperbolic_sweep_mem_bounds h).2
    norm_num at this

/-- C6 (amended): for the hyperbolic regime the sampler sweeps the *bounded
pre-periapsis half-range* `[-6.4, 0]` — ending exactly at periapsis, not
symmetric about it — using 65 samples against the elliptical 129, and the
sweep's first and last mean anomalies differ (an open, non-looping arc). -/
theorem hyperbolic_sweep_bounded_half_range :
    (∀ m ∈ orbitSweepM .hyperbolic, -(32/5) ≤ m ∧ m ≤ 0) ∧
    (orbitSweepM .hyperbolic).length = 65 ∧
    (orbitSweepM .elliptical).length = 129 ∧
    (orbitSweepM .hyperbolic).head? = some (-(32/5)) ∧
    (orbitSweepM .hyperbolic).getLast? = some 0 ∧
    (-(32/5) : ℝ) ≠ 0 := by
  refine ⟨fun m hm => hyperbolic_sweep_mem_bounds hm, ?_, ?_, ?_, ?_, by norm_num⟩
  · rw [orbitSweepM]
    simp [orbitMaxIdx]
  · rw [orbitSweepM]
    simp [orbitMaxIdx, segmentCount]
  · rw [orbitSweepM, List.head?_map]
    have : (List.range (orbitMaxIdx .hyperbolic + 1)).head? = some 0 := by
      rw [orbitMaxIdx]
      simp only [reduceIte]
      decide
    rw [this]
    simp only [Option.map_some']
    rw [orbitSampleM]
    simp only [reduceIte]
    rw [segmentCount]
    norm_num
  · rw [orbitSweepM, List.getLast?_map]
    have : (List.range (orbitMaxIdx .hyperbolic + 1)).getLast? = some 64 := by
      rw [orbitMaxIdx]
      simp only [reduceIte]
      decide
    rw [this]
    simp only [Option.map_some']
    rw [orbitSampleM]
    simp only [reduceIte]
    rw [segmentCount]
    norm_num

/-! ### C3 — opacity: exact endpoints, monotonicity, clamping -/

/-- At distances up to `minDistance = a·AU·4` the opacity is exactly 1. -/
theorem newOpacityAt_eq_one {d a au : ℝ} (h : d ≤ a * au * 4) :
    newOpacityAt d a au = 1 := by
  rw [newOpacityAt, if_neg (not_lt.mpr h)]

/-- At distances from `maxDistance = a·AU·10` on, the opacity is exactly 0. -/
theorem newOpacityAt_eq_zero {d a au : ℝ} (ha : 0 < a) (hau : 0 < au)
    (h : a * au * 10 ≤ d) : newOpacityAt d a au = 0 := by
  have hk : 0 < a * au := mul_pos ha hau
  have hmm : a * au * 4 < d := by nlinarith
  rw [newOpacityAt, if_pos hmm, clamp]
  have hC : (0:ℝ) < a * au * 10 - a * au * 4 := by nlinarith
  have h1 : 1 - (d - a * au * 4) / (a * au * 10 - a * au * 4) ≤ 0 := by
    rw [sub_nonpos, le_div_iff₀ hC]
    nlinarith
  rw [max_eq_left (le_trans (min_le_right _ _) h1)]

/-- The opacity always lies in `[0, 1]`. -/
theorem newOpacityAt_mem_unit (d a au : ℝ) :
    0 ≤ newOpacityAt d a au ∧ newOpacityAt d a au ≤ 1 := by
  rw [newOpacityAt]
  split
  · exact ⟨le_max_left _ _, max_le zero_le_one (min_le_left _ _)⟩
  · exact ⟨zero_le_one, le_refl 1⟩

/-- The opacity is non-increasing in the distance. -/
theorem newOpacityAt_antitone {d1 d2 a au : ℝ} (ha : 0 < a) (hau : 0 < au)
    (h : d1 ≤ d2) : newOpacityAt d2 a au ≤ newOpacityAt d1 a au := by
  rcases le_or_lt d2 (a * au * 4) with h2 | h2
  · rw [newOpacityAt_eq_one h2, newOpacityAt_eq_one (le_trans h h2)]
  · rw [newOpacityAt, if_pos h2]
    rcases le_or_lt d1 (a * au * 4) with h1 | h1
    · rw [newOpacityAt_eq_one h1, clamp]
      exact max_le zero_le_one (min_le_left _ _)
    · rw [newOpacityAt, if_pos h1, clamp, clamp]
      have hC : (0:ℝ) < a * au * 10 - a * au * 4 := by nlinarith [mul_pos ha hau]
      have hle : 1 - (d2 - a * au * 4) / (a * au * 10 - a * au * 4)
          ≤ 1 - (d1 - a * au * 4) / (a * au * 10 - a * au * 4) := by
        have hdiv := (div_le_div_iff_of_pos_right hC).mpr (sub_le_sub_right h (a * au * 4))
        linarith
      exact max_le_max (le_refl 0) (min_le_min (le_refl 1) hle)

/-- C3: for every body and observer position and positive `semiMajorAxis`
(and positive AU scale), the computed opacity is exactly 1 at distances up
to `minDistance = a·AU·4`, exactly 0 from `maxDistance = a·AU·10` on,
non-increasing as the observer-to-body distance increases, and always in
`[0, 1]`. -/
theorem opacity_endpoints_monotone_clamped (body obs : Vec3) (a au : ℝ)
    (ha : 0 < a) (hau : 0 < au) :
    (distance3 obs body ≤ a * au * 4 → newOpacityAt (distance3 obs body) a au = 1) ∧
    (a * au * 10 ≤ distance3 obs body → newOpacityAt (distance3 obs body) a au = 0) ∧
    (∀ body2 obs2 : Vec3, distance3 obs body ≤ distance3 obs2 body2 →
        newOpacityAt (distance3 obs2 body2) a au ≤ newOpacityAt (distance3 obs body) a au) ∧
    0 ≤ newOpacityAt (distance3 obs body) a au ∧
    newOpacityAt (distance3 obs body) a au ≤ 1 := by
  refine ⟨fun h => newOpacityAt_eq_one h, fun h => newOpacityAt_eq_zero ha hau h,
    fun body2 obs2 h => newOpacityAt_antitone ha hau h,
    (newOpacityAt_mem_unit _ a au).1, (newOpacityAt_mem_unit _ a au).2⟩

/-- Witness for C3: at coincident body and observer the distance is 0 and
the opacity is exactly 1. -/
theorem opacity_witness :
    newOpacityAt (distance3 camZero camZero) 1 1 = 1 :=
  (opacity_endpoints_monotone_clamped camZero camZero 1 1 (by norm_num) (by norm_num)).1
    (by simp [distance3])

/-! ### C7 — the elliptical sweep is uniform over [0, 2π] and the path closes -/

/-- One Newton check that already meets the tolerance returns immediately. -/
theorem newtonEll_hit (e M E : ℝ) (fuel : ℕ)
    (h : |E - e * Real.sin E - M| < keplerTolerance) :
    newtonEll e M (fuel + 1) E = some E := by
  simp only [newtonEll]
  rw [if_pos h]

/-- The modelled solver is exact at mean anomaly 0 in the elliptical regime. -/
theorem solveKepler_zero {e : ℝ} (he : e < 1) : solveKepler 0 e = some 0 := by
  have h : |(0:ℝ) - e * Real.sin 0 - 0| < keplerTolerance := by
    rw [Real.sin_zero, mul_zero, sub_zero, sub_zero, abs_zero, keplerTolerance]
    norm_num
  rw [solveKepler, if_pos he, show keplerMaxIter = 49 + 1 from rfl]
  exact newtonEll_hit e 0 0 49 h

/-- The modelled solver is exact at mean anomaly 2π in the elliptical regime. -/
theorem solveKepler_two_pi {e : ℝ} (he : e < 1) :
    solveKepler (2 * π) e = some (2 * π) := by
  have h : |2 * π - e * Real.sin (2 * π) - 2 * π| < keplerTolerance := by
    rw [Real.sin_two_pi, mul_zero, sub_zero, sub_self, abs_zero, keplerTolerance]
    norm_num
  rw [solveKepler, if_pos he, show keplerMaxIter = 49 + 1 from rfl]
  exact newtonEll_hit e (2 * π) (2 * π) 49 h

/-- `atan2 0 x = 0` on the positive axis. -/
theorem atan2_zero_of_pos {x : ℝ} (hx : 0 < x) : atan2 0 x = 0 := by
  rw [atan2, if_pos hx, zero_div, Real.arctan_zero]

/-- `atan2 0 x = π` on the negative axis. -/
theorem atan2_zero_of_neg {x : ℝ} (hx : x < 0) : atan2 0 x = π := by
  rw [atan2, if_neg (asymm hx), if_pos hx, if_pos (le_refl (0:ℝ)), zero_div,
    Real.arctan_zero, zero_add]

/-- The elliptical true anomaly at `E = 0` is 0. -/
theorem nuEll_zero {e : ℝ} (he : e < 1) : nuEll e 0 = 0 := by
  have hx : 0 < Real.sqrt (1 - e) := Real.sqrt_pos.mpr (by linarith)
  rw [nuEll, show (0:ℝ)/2 = 0 by norm_num, Real.sin_zero, Real.cos_zero,
    mul_zero, mul_one, atan2_zero_of_pos hx, mul_zero]

/-- The elliptical true anomaly at `E = 2π` is 2π. -/
theorem nuEll_two_pi {e : ℝ} (he : e < 1) : nuEll e (2 * π) = 2 * π := by
  have hx : 0 < Real.sqrt (1 - e) := Real.sqrt_pos.mpr (by linarith)
  rw [nuEll, show 2*π/2 = π by ring, Real.sin_pi, Real.cos_pi, mul_zero,
    mul_neg_one, atan2_zero_of_neg (neg_lt_zero.mpr hx)]

/-- The sampled inertial point at `E = 2π` coincides with the one at
`E = 0`: the elliptical trace closes exactly. -/
theorem bodyPoint_ell_closed (el : Elements) (au : ℝ) (he : el.eccentricity < 1) :
    bodyPoint .elliptical el (2 * π) au = bodyPoint .elliptical el 0 au := by
  simp only [bodyPoint]
  rw [nuEll_two_pi he, nuEll_zero he, radiusEll, radiusEll,
    Real.cos_two_pi, Real.cos_zero, Real.sin_two_pi, Real.sin_zero]

/-- The elliptical sweep formula, the regime test discharged. -/
theorem orbitSampleM_ell (idx : ℕ) :
    orbitSampleM .elliptical idx = 2 * π * (idx : ℝ) / ((segmentCount : ℕ) : ℝ) := by
  rw [orbitSampleM, if_neg (by decide : ¬ (OrbitRegime.elliptical = .hyperbolic))]

/-- The first elliptical path sample: mean anomaly 0, solved exactly. -/
theorem orbitSamplePoint_ell_zero (el : Elements) (au : ℝ) (he : el.eccentricity < 1) :
    orbitSamplePoint solveKepler .elliptical el au 0
      = some (bodyPoint .elliptical el 0 au) := by
  have hM : orbitSampleM .elliptical 0 = 0 := by
    rw [orbitSampleM_ell]
    norm_num
  rw [orbitSamplePoint, hM, solveKepler_zero he]

/-- The last elliptical path sample: mean anomaly 2π, solved exactly, landing
on the first sample's point. -/
theorem orbitSamplePoint_ell_last (el : Elements) (au : ℝ) (he : el.eccentricity < 1) :
    orbitSamplePoint solveKepler .elliptical el au 128
      = some (bodyPoint .elliptical el 0 au) := by
  have hM : orbitSampleM .elliptical 128 = 2 * π := by
    rw [orbitSampleM_ell, segmentCount]
    push_cast
    ring
  rw [orbitSamplePoint, hM, solveKepler_two_pi he]
  show some (bodyPoint .elliptical el (2 * π) au) = _
  rw [bodyPoint_ell_closed el au he]

/-- The elliptical sample list, with its index range spelt out. -/
theorem orbitPoints_ell_eq (el : Elements) (au : ℝ) :
    orbitPoints solveKepler .elliptical el au
      = (List.range 129).filterMap (orbitSamplePoint solveKepler .elliptical el au) := rfl

/-- C7: for an elliptical orbit the sampler sweeps the mean anomaly uniformly
over `[0, 2π]` — starting at 0, stepping by `2π/segmentCount`, ending at
`2π` at index `segmentCount` — and the resulting path is a closed loop: its
first and its last point are exactly equal (hence they coincide within any
tolerance, in particular 1e-4 relative). -/
theorem elliptical_path_closed (el : Elements) (au : ℝ) (he : el.eccentricity < 1) :
    orbitSampleM (orbitTypeOf el.eccentricity) 0 = 0 ∧
    orbitSampleM (orbitTypeOf el.eccentricity) segmentCount = 2 * π ∧
    (∀ idx : ℕ, orbitSampleM (orbitTypeOf el.eccentricity) (idx + 1)
        - orbitSampleM (orbitTypeOf el.eccentricity) idx = 2 * π / (segmentCount : ℝ)) ∧
    ∃ p : Vec3,
      (orbitPoints solveKepler (orbitTypeOf el.eccentricity) el au).head? = some p ∧
      (orbitPoints solveKepler (orbitTypeOf el.eccentricity) el au).getLast? = some p := by
  have hreg : orbitTypeOf el.eccentricity = .elliptical := by
    rw [orbitTypeOf, if_pos he]
  rw [hreg]
  refine ⟨?_, ?_, ?_, ⟨bodyPoint .elliptical el 0 au, ?_, ?_⟩⟩
  · rw [orbitSampleM_ell]
    norm_num
  · rw [orbitSampleM_ell, segmentCount]
    push_cast
    ring
  · intro idx
    rw [orbitSampleM_ell, orbitSampleM_ell, segmentCount]
    push_cast
    ring
  · rw [orbitPoints_ell_eq, List.range_succ_eq_map, List.filterMap_cons,
      orbitSamplePoint_ell_zero el au he]
    rfl
  · rw [orbitPoints_ell_eq, List.range_succ, List.filterMap_append]
    have hlast : List.filterMap (orbitSamplePoint solveKepler .elliptical el au) [128]
        = [bodyPoint .elliptical el 0 au] := by
      rw [List.filterMap_cons, orbitSamplePoint_ell_last el au he]
      rfl
    rw [hlast, List.getLast?_concat]

/-- Witness for C7 at eccentricity 1/2 (the hypothesis `e < 1` holds). -/
theorem elliptical_path_closed_witness :
    ∃ p : Vec3,
      (orbitPoints solveKepler (orbitTypeOf elHalf.eccentricity) elHalf 1).head? = some p ∧
      (orbitPoints solveKepler (orbitTypeOf elHalf.eccentricity) elHalf 1).getLast? = some p :=
  (elliptical_path_closed elHalf 1 (by norm_num [elHalf])).2.2.2
